import Mathlib

/-!
Shallow embedding of the `rest_client` Go package (files `app_client.go` and
the client/result file) together with proofs about its specification.

Modelling conventions:
* Go strings are Lean `String`s; where the code works on raw bytes
  (UTF-8), we convert with an explicit UTF-8 encoder `strBytes`.
* Go machine integers are `Nat`/`Int`; 32-bit overflow in MD5 is taken
  `% 2 ^ 32` explicitly.
* Go `error` values are the inductive `GoErr`; the distinguished `io.EOF`
  sentinel is the constructor `GoErr.eof`.
* Observer (`RestEvent`) callbacks are recorded as an emitted event trace
  (`List Ev`); an absent (`nil`) event is the flag `event := false`
  (calls guarded by `!= nil` in Go then emit nothing).
-/

namespace RestClient

/-- Go `error` values used by the package.  `eof` is `io.EOF`;
`rest c m` is `RestClientError{Code: c, Msg: m}`; `other` is any other
error (e.g. one returned by `ConfigBuilds` or an underlying reader). -/
inductive GoErr where
  | eof
  | rest (code msg : String)
  | other (msg : String)
  deriving DecidableEq, Repr

/-- Observer callbacks of the `RestEvent` interface, recorded as trace
elements. -/
inductive Ev where
  | requestStart (method url : String)
  | requestRead (data : List Nat)
  | responseHeader (httpCode : Nat) (header : List (String × List String))
  | responseRead (data : List Nat)
  | responseFinish (err : Option GoErr)
  | responseCheck (err : Option GoErr)
  deriving DecidableEq, Repr

/-! ### UTF-8 bytes of a Go string -/

/-- UTF-8 encoding of one Unicode code point (Go strings store UTF-8
bytes; `[]byte(s)` exposes them). -/
def charUtf8 (c : Nat) : List Nat :=
  if c < 0x80 then [c]
  else if c < 0x800 then [0xC0 + c / 0x40, 0x80 + c % 0x40]
  else if c < 0x10000 then
    [0xE0 + c / 0x1000, 0x80 + c / 0x40 % 0x40, 0x80 + c % 0x40]
  else
    [0xF0 + c / 0x40000, 0x80 + c / 0x1000 % 0x40, 0x80 + c / 0x40 % 0x40,
      0x80 + c % 0x40]

/-- The byte sequence of a Go string (`[]byte(s)`). -/
def strBytes (s : String) : List Nat :=
  s.data.foldr (fun c acc => charUtf8 c.toNat ++ acc) []

/-! ### `net/url` form encoding (`url.Values`, `Values.Set`, `Values.Encode`) -/

/-- Go `url.QueryEscape` leaves these bytes unescaped
(alphanumerics and `-_.~`). -/
def isUnreservedByte (b : Nat) : Bool :=
  (65 ≤ b && b ≤ 90) || (97 ≤ b && b ≤ 122) || (48 ≤ b && b ≤ 57) ||
    b == 45 || b == 95 || b == 46 || b == 126

/-- Upper-case hex digit, as Go's `"0123456789ABCDEF"` table. -/
def hexUpperDigit (n : Nat) : Char :=
  if n < 10 then Char.ofNat (48 + n) else Char.ofNat (65 + (n - 10))

/-- Escape a single byte as `url.QueryEscape` does: unreserved bytes kept,
space becomes `+`, anything else `%XX` with upper-case hex. -/
def queryEscapeByte (b : Nat) : List Char :=
  if isUnreservedByte b then [Char.ofNat b]
  else if b == 32 then ['+']
  else ['%', hexUpperDigit (b / 16), hexUpperDigit (b % 16)]

/-- Go `url.QueryEscape`. -/
def queryEscape (s : String) : String :=
  ⟨(strBytes s).foldr (fun b acc => queryEscapeByte b ++ acc) []⟩

/-- `url.Values` is `map[string][]string`; modelled as an association list
keyed in first-insertion order (Go's `Encode` sorts the keys itself, so
the list order never reaches the output). -/
def UrlValues := List (String × List String)

/-- `url.Values.Set(key, value)`: replace the entry for `key` by the
one-element list `[value]`, appending a fresh entry when absent. -/
def urlValuesSet (vs : List (String × List String)) (k v : String) :
    List (String × List String) :=
  match vs with
  | [] => [(k, [v])]
  | (k', vv) :: rest =>
    if k' = k then (k, [v]) :: rest else (k', vv) :: urlValuesSet rest k v

/-- Map lookup `v[key]` on the association list (first match). -/
def urlValuesGet (vs : List (String × List String)) (k : String) :
    Option (List String) :=
  match vs with
  | [] => none
  | (k', vv) :: rest => if k' = k then some vv else urlValuesGet rest k

/-- Lexicographic ≤ on code-point sequences.  Go compares strings
byte-wise; UTF-8 makes byte-wise and code-point-wise lexicographic order
agree, so this models Go's `s < t` (and `sort.StringSlice`) exactly. -/
def charsLe : List Char → List Char → Bool
  | [], _ => true
  | _ :: _, [] => false
  | a :: as, b :: bs =>
    if a.toNat < b.toNat then true
    else if b.toNat < a.toNat then false
    else charsLe as bs

/-- Go string comparison `a <= b`. -/
def goStrLe (a b : String) : Bool := charsLe a.data b.data

/-- The sort order used by `sort.Sort(sort.StringSlice(keys))` and by
`url.Values.Encode`, as a `Prop`-valued relation. -/
def goStrLeR (a b : String) : Prop := goStrLe a b = true

instance : DecidableRel goStrLeR := fun _ _ => instDecidableEqBool _ _

/-- `url.Values.Encode()`: sort the keys, then write `k=v` pairs joined
by `&`, query-escaping both sides. -/
def urlValuesEncode (vs : List (String × List String)) : String :=
  String.intercalate "&"
    (List.flatten ((List.insertionSort goStrLeR (vs.map Prod.fst)).map (fun k =>
      ((urlValuesGet vs k).getD []).map
        (fun v => queryEscape k ++ "=" ++ queryEscape v))))

/-! ### The signer `AppRestParamSign` (app_client.go) -/

/-- The `reqParam` map literal of `AppRestParamSign`, in insertion order:
`app`, `version`, `timestamp`, `content` always; `method` only when
non-empty; `token` only when the pointer is non-nil. -/
def reqParamSignList (version appKey method timestamp content : String)
    (token : Option String) : List (String × String) :=
  [("app", appKey), ("version", version), ("timestamp", timestamp),
    ("content", content)] ++
  (if 0 < method.length then [("method", method)] else []) ++
  (match token with
   | some t => [("token", t)]
   | none => [])

/-- Lookup in the `reqParam` map (`reqParam[key]`; absent keys read as
the empty string, Go's zero value). -/
def reqParamLookup (ps : List (String × String)) (k : String) : String :=
  match ps with
  | [] => ""
  | (k', v) :: rest => if k' = k then v else reqParamLookup rest k

/-- The field names of the signed set, in map-insertion order.  Go
iterates the map in unspecified order; theorems quantify over any
permutation of this list. -/
def signKeys (version appKey method timestamp content : String)
    (token : Option String) : List String :=
  (reqParamSignList version appKey method timestamp content token).map Prod.fst

/-- The `data.Set` loop of `AppRestParamSign`: set each key of `keys`
(in order) into an empty `url.Values`. -/
def setAllKeys (keys : List String) (f : String → String) :
    List (String × List String) :=
  keys.foldl (fun vs k => urlValuesSet vs k (f k)) []

/-- The string that gets signed (`reqData` in `AppRestParamSign`), for a
given iteration order `order` of the map keys: sort the keys, `Set` each
into `url.Values`, `Encode`. -/
def signedStringOfOrder (order : List String) (f : String → String) : String :=
  urlValuesEncode (setAllKeys (List.insertionSort goStrLeR order) f)

/-- `reqData` of `AppRestParamSign` at the canonical (insertion-order)
key enumeration. -/
def appRestParamSignData (version appKey method timestamp content : String)
    (token : Option String) : String :=
  signedStringOfOrder (signKeys version appKey method timestamp content token)
    (reqParamLookup (reqParamSignList version appKey method timestamp content token))

/-! ### MD5 (`crypto/md5` + `fmt.Sprintf("%x", ...)`) -/

/-- The 64 MD5 sine-table constants `K[i] = floor(2^32 * abs(sin(i+1)))`. -/
def md5K : List Nat :=
  [0xd76aa478, 0xe8c7b756, 0x242070db, 0xc1bdceee,
   0xf57c0faf, 0x4787c62a, 0xa8304613, 0xfd469501,
   0x698098d8, 0x8b44f7af, 0xffff5bb1, 0x895cd7be,
   0x6b901122, 0xfd987193, 0xa679438e, 0x49b40821,
   0xf61e2562, 0xc040b340, 0x265e5a51, 0xe9b6c7aa,
   0xd62f105d, 0x02441453, 0xd8a1e681, 0xe7d3fbc8,
   0x21e1cde6, 0xc33707d6, 0xf4d50d87, 0x455a14ed,
   0xa9e3e905, 0xfcefa3f8, 0x676f02d9, 0x8d2a4c8a,
   0xfffa3942, 0x8771f681, 0x6d9d6122, 0xfde5380c,
   0xa4beea44, 0x4bdecfa9, 0xf6bb4b60, 0xbebfbc70,
   0x289b7ec6, 0xeaa127fa, 0xd4ef3085, 0x04881d05,
   0xd9d4d039, 0xe6db99e5, 0x1fa27cf8, 0xc4ac5665,
   0xf4292244, 0x432aff97, 0xab9423a7, 0xfc93a039,
   0x655b59c3, 0x8f0ccc92, 0xffeff47d, 0x85845dd1,
   0x6fa87e4f, 0xfe2ce6e0, 0xa3014314, 0x4e0811a1,
   0xf7537e82, 0xbd3af235, 0x2ad7d2bb, 0xeb86d391]

/-- The 64 MD5 per-round left-rotation amounts. -/
def md5S : List Nat :=
  [7, 12, 17, 22, 7, 12, 17, 22, 7, 12, 17, 22, 7, 12, 17, 22,
   5, 9, 14, 20, 5, 9, 14, 20, 5, 9, 14, 20, 5, 9, 14, 20,
   4, 11, 16, 23, 4, 11, 16, 23, 4, 11, 16, 23, 4, 11, 16, 23,
   6, 10, 15, 21, 6, 10, 15, 21, 6, 10, 15, 21, 6, 10, 15, 21]

/-- 32-bit rotate left. -/
def rotl32 (x s : Nat) : Nat :=
  (x <<< s ||| x >>> (32 - s)) % 2 ^ 32

/-- 32-bit complement. -/
def not32 (x : Nat) : Nat := Nat.xor x 0xffffffff

/-- Word `j` (little-endian 32-bit) of a 64-byte block. -/
def md5Word (block : List Nat) (j : Nat) : Nat :=
  block.getD (4 * j) 0 + 2 ^ 8 * block.getD (4 * j + 1) 0 +
    2 ^ 16 * block.getD (4 * j + 2) 0 + 2 ^ 24 * block.getD (4 * j + 3) 0

/-- One MD5 round `i` on state `(a, b, c, d)` with message block `m`. -/
def md5Round (m : List Nat) (st : Nat × Nat × Nat × Nat) (i : Nat) :
    Nat × Nat × Nat × Nat :=
  let (a, b, c, d) := st
  let (f, g) :=
    if i < 16 then ((b &&& c) ||| (not32 b &&& d), i)
    else if i < 32 then ((d &&& b) ||| (not32 d &&& c), (5 * i + 1) % 16)
    else if i < 48 then (Nat.xor (Nat.xor b c) d, (3 * i + 5) % 16)
    else (Nat.xor c (b ||| not32 d), 7 * i % 16)
  let f := (f + a + md5K.getD i 0 + md5Word m g) % 2 ^ 32
  (d, (b + rotl32 f (md5S.getD i 0)) % 2 ^ 32, b, c)

/-- Process one 64-byte block, updating the running digest state. -/
def md5Block (st : Nat × Nat × Nat × Nat) (m : List Nat) :
    Nat × Nat × Nat × Nat :=
  let (a0, b0, c0, d0) := st
  let (a, b, c, d) := (List.range 64).foldl (md5Round m) (a0, b0, c0, d0)
  ((a0 + a) % 2 ^ 32, (b0 + b) % 2 ^ 32, (c0 + c) % 2 ^ 32, (d0 + d) % 2 ^ 32)

/-- MD5 padding: append `0x80`, zero-fill to 56 mod 64, then the bit
length as a little-endian 64-bit integer. -/
def md5Pad (msg : List Nat) : List Nat :=
  let ml := 8 * msg.length % 2 ^ 64
  let zeros := (55 + 64 - msg.length % 64) % 64
  msg ++ [0x80] ++ List.replicate zeros 0 ++
    (List.range 8).map (fun j => ml / 2 ^ (8 * j) % 2 ^ 8)

/-- Split a (padded) byte list into 64-byte blocks; `fuel` bounds the
recursion and is instantiated with the list length. -/
def chunks64 (fuel : Nat) (l : List Nat) : List (List Nat) :=
  match fuel with
  | 0 => []
  | fuel + 1 =>
    match l with
    | [] => []
    | _ => l.take 64 :: chunks64 fuel (l.drop 64)

/-- Little-endian bytes of a 32-bit word. -/
def wordBytes (x : Nat) : List Nat :=
  [x % 2 ^ 8, x / 2 ^ 8 % 2 ^ 8, x / 2 ^ 16 % 2 ^ 8, x / 2 ^ 24 % 2 ^ 8]

/-- `md5.Sum` over a byte sequence: the 16 digest bytes. -/
def md5Sum (msg : List Nat) : List Nat :=
  let padded := md5Pad msg
  let (a, b, c, d) := (chunks64 padded.length padded).foldl md5Block
    (0x67452301, 0xefcdab89, 0x98badcfe, 0x10325476)
  wordBytes a ++ wordBytes b ++ wordBytes c ++ wordBytes d

/-- Lower-case hex digit. -/
def hexLowerDigit (n : Nat) : Char :=
  if n < 10 then Char.ofNat (48 + n) else Char.ofNat (97 + (n - 10))

/-- `fmt.Sprintf("%x", bytes)`: lower-case hex of a byte sequence. -/
def bytesToHex (bs : List Nat) : String :=
  ⟨bs.foldr (fun b acc => hexLowerDigit (b / 16) :: hexLowerDigit (b % 16) :: acc) []⟩

/-- `AppRestParamSign(version, appKey, method, timestamp, content,
appSecret, token)` from app_client.go: build the field map, sort the key
enumeration, form-encode, and return the lower-case hex MD5 of
`reqData + appSecret`. -/
def AppRestParamSign (version appKey method timestamp content appSecret : String)
    (token : Option String) : String :=
  bytesToHex (md5Sum (strBytes
    (appRestParamSignData version appKey method timestamp content token ++ appSecret)))

/-- `AppRestParamSign` with the map-key enumeration order made explicit
(Go enumerates `for k := range reqParam` in unspecified order; theorems
quantify over any permutation of the key set). -/
def appRestParamSignOfOrder (order : List String)
    (version appKey method timestamp content appSecret : String)
    (token : Option String) : String :=
  bytesToHex (md5Sum (strBytes
    (signedStringOfOrder order
      (reqParamLookup (reqParamSignList version appKey method timestamp content token))
      ++ appSecret)))

/-! ### JSON values and the `gjson` lookup used by `CheckJsonResult`

`gjson` is an external dependency (`github.com/tidwall/gjson`); it is
modelled from its documented behaviour: `gjson.Get(body, path)` resolves
a dotted path of object keys in the parsed body, yielding a missing
result on malformed JSON or absent paths, and `Result.String()` maps
missing and `null` to `""`, strings to their value, booleans to
`"true"`/`"false"`, and numbers/JSON to their raw text. -/

inductive JsonVal where
  | null
  | boolean (b : Bool)
  | num (raw : String)
  | str (s : String)
  | arr (xs : List JsonVal)
  | obj (fields : List (String × JsonVal))

/-- Opening brace character. -/
def lbrace : Char := Char.ofNat 123
/-- Closing brace character. -/
def rbrace : Char := Char.ofNat 125

/-- JSON whitespace. -/
def isJsonWs (c : Char) : Bool :=
  c == ' ' || c == '\t' || c == '\n' || c == '\r'

/-- Drop leading JSON whitespace. -/
def skipWs : List Char → List Char
  | [] => []
  | c :: rest => if isJsonWs c then skipWs rest else c :: rest

/-- Parse the remainder of a JSON string literal (the opening quote
already consumed), handling the single-character escapes. -/
def parseStrChars : List Char → Option (List Char × List Char)
  | [] => none
  | c :: rest =>
    if c = '"' then some ([], rest)
    else if c = '\\' then
      match rest with
      | [] => none
      | e :: rest' =>
        let dec : Option Char :=
          if e = '"' then some '"'
          else if e = '\\' then some '\\'
          else if e = '/' then some '/'
          else if e = 'n' then some '\n'
          else if e = 't' then some '\t'
          else if e = 'r' then some '\r'
          else if e = 'b' then some (Char.ofNat 8)
          else if e = 'f' then some (Char.ofNat 12)
          else none
        match dec with
        | none => none
        | some d =>
          match parseStrChars rest' with
          | none => none
          | some (cs, r) => some (d :: cs, r)
    else
      match parseStrChars rest with
      | none => none
      | some (cs, r) => some (c :: cs, r)

/-- Characters that may appear in a JSON number literal. -/
def isNumChar (c : Char) : Bool :=
  c == '-' || c == '+' || c == '.' || c == 'e' || c == 'E' ||
    (48 ≤ c.toNat && c.toNat ≤ 57)

mutual

/-- Parse one JSON value; `fuel` bounds recursion depth and is
instantiated with the input length. -/
def parseVal : Nat → List Char → Option (JsonVal × List Char)
  | 0, _ => none
  | fuel + 1, cs =>
    match skipWs cs with
    | [] => none
    | c :: rest =>
      if c = lbrace then
        match skipWs rest with
        | [] => none
        | c' :: rest' =>
          if c' = rbrace then some (.obj [], rest')
          else
            match parseMembers fuel (c' :: rest') with
            | none => none
            | some (fs, r) => some (.obj fs, r)
      else if c = '[' then
        match skipWs rest with
        | [] => none
        | c' :: rest' =>
          if c' = ']' then some (.arr [], rest')
          else
            match parseElems fuel (c' :: rest') with
            | none => none
            | some (xs, r) => some (.arr xs, r)
      else if c = '"' then
        match parseStrChars rest with
        | none => none
        | some (cs', r) => some (.str ⟨cs'⟩, r)
      else if c = 't' then
        match rest with
        | 'r' :: 'u' :: 'e' :: r => some (.boolean true, r)
        | _ => none
      else if c = 'f' then
        match rest with
        | 'a' :: 'l' :: 's' :: 'e' :: r => some (.boolean false, r)
        | _ => none
      else if c = 'n' then
        match rest with
        | 'u' :: 'l' :: 'l' :: r => some (.null, r)
        | _ => none
      else if isNumChar c then
        some (.num ⟨(c :: rest).takeWhile isNumChar⟩,
          (c :: rest).dropWhile isNumChar)
      else none

/-- Parse the members of a JSON object (first member not yet consumed,
closing brace consumed here). -/
def parseMembers (fuel : Nat) (cs : List Char) :
    Option (List (String × JsonVal) × List Char) :=
  match fuel with
  | 0 => none
  | fuel + 1 =>
    match skipWs cs with
    | [] => none
    | c :: rest =>
      if c = '"' then
        match parseStrChars rest with
        | none => none
        | some (kcs, r) =>
          match skipWs r with
          | ':' :: r' =>
            match parseVal fuel r' with
            | none => none
            | some (v, r'') =>
              match skipWs r'' with
              | ',' :: r''' =>
                match parseMembers fuel r''' with
                | none => none
                | some (fs, rr) => some ((⟨kcs⟩, v) :: fs, rr)
              | c' :: r''' =>
                if c' = rbrace then some ([(⟨kcs⟩, v)], r''') else none
              | [] => none
          | _ => none
      else none

/-- Parse the elements of a JSON array (first element not yet consumed,
closing bracket consumed here). -/
def parseElems (fuel : Nat) (cs : List Char) :
    Option (List JsonVal × List Char) :=
  match fuel with
  | 0 => none
  | fuel + 1 =>
    match parseVal fuel cs with
    | none => none
    | some (v, r) =>
      match skipWs r with
      | ',' :: r' =>
        match parseElems fuel r' with
        | none => none
        | some (xs, rr) => some (v :: xs, rr)
      | ']' :: r' => some ([v], r')
      | _ => none

end

/-- Parse a whole JSON document; anything but a single value followed by
whitespace is rejected (`gjson` then yields missing results). -/
def parseJson (s : String) : Option JsonVal :=
  match parseVal (s.data.length + 1) s.data with
  | some (v, rest) => if skipWs rest = [] then some v else none
  | none => none

/-- First-match lookup of an object member. -/
def jsonObjGet (fs : List (String × JsonVal)) (k : String) : Option JsonVal :=
  match fs with
  | [] => none
  | (k', v) :: rest => if k' = k then some v else jsonObjGet rest k

/-- Resolve a dotted path of object keys. -/
def gjsonGetPath (v : JsonVal) (path : List String) : Option JsonVal :=
  match path with
  | [] => some v
  | k :: rest =>
    match v with
    | .obj fs =>
      match jsonObjGet fs k with
      | some v' => gjsonGetPath v' rest
      | none => none
    | _ => none

/-- Split a `gjson` path at the dots. -/
def splitPathAux : List Char → List Char → List String
  | [], acc => [⟨acc.reverse⟩]
  | c :: rest, acc =>
    if c = '.' then ⟨acc.reverse⟩ :: splitPathAux rest []
    else splitPathAux rest (c :: acc)

/-- Dotted-path components of a `gjson` path string. -/
def splitPath (p : String) : List String := splitPathAux p.data []

/-- `gjson.Get(body, path)`. -/
def gjsonGet (body path : String) : Option JsonVal :=
  match parseJson body with
  | none => none
  | some v => gjsonGetPath v (splitPath path)

mutual

/-- Raw text of a JSON value (the `Raw` slice `gjson` reports for
object/array results, up to whitespace). -/
def serializeJson : JsonVal → String
  | .null => "null"
  | .boolean b => if b then "true" else "false"
  | .num raw => raw
  | .str s => "\"" ++ escapeJsonStr s.data ++ "\""
  | .arr xs => "[" ++ serializeElems xs ++ "]"
  | .obj fs => lbrace.toString ++ serializeFields fs ++ rbrace.toString

/-- Raw text of array elements. -/
def serializeElems : List JsonVal → String
  | [] => ""
  | [x] => serializeJson x
  | x :: xs => serializeJson x ++ "," ++ serializeElems xs

/-- Raw text of object members. -/
def serializeFields : List (String × JsonVal) → String
  | [] => ""
  | [(k, v)] => "\"" ++ escapeJsonStr k.data ++ "\":" ++ serializeJson v
  | (k, v) :: fs =>
    "\"" ++ escapeJsonStr k.data ++ "\":" ++ serializeJson v ++ "," ++
      serializeFields fs

/-- Escape quotes and backslashes in a JSON string literal. -/
def escapeJsonStr : List Char → String
  | [] => ""
  | c :: rest =>
    (if c = '"' then "\\\"" else if c = '\\' then "\\\\" else c.toString) ++
      escapeJsonStr rest

end

/-- `gjson`'s `Result.String()` applied to the result of a path lookup:
missing and `null` read as `""`. -/
def gjsonResultString (r : Option JsonVal) : String :=
  match r with
  | none => ""
  | some .null => ""
  | some (.boolean b) => if b then "true" else "false"
  | some (.num raw) => raw
  | some (.str s) => s
  | some v => serializeJson v

/-- `gjson.Get(body, path).String()`. -/
def gjsonGetString (body path : String) : String :=
  gjsonResultString (gjsonGet body path)

/-! ### `AppClientError` and `AppRestBuild.CheckJsonResult` (app_client.go) -/

/-- The `AppClientError` struct. -/
structure AppClientError where
  Msg : String
  Code : String
  SubCode : String
  deriving DecidableEq, Repr

/-- `NewAppClientError(code, subCode, msg)`. -/
def NewAppClientError (code subCode msg : String) : AppClientError :=
  { Code := code, Msg := msg, SubCode := subCode }

/-- `AppClientError.Error()`: `"%s [%s]"` of message and code. -/
def AppClientError.errorString (err : AppClientError) : String :=
  err.Msg ++ " [" ++ err.Code ++ "]"

/-- `AppRestBuild.CheckJsonResult(body)`; `none` is Go's `nil` error. -/
def CheckJsonResult (body : String) : Option AppClientError :=
  let code := gjsonGetString body "result.code"
  let state := gjsonGetString body "result.state"
  if code ≠ "200" ∨ state ≠ "ok" then
    let msg0 := gjsonGetString body "result.message"
    let msg := if msg0.length = 0 then body else msg0
    some (NewAppClientError code (gjsonGetString body "result.state")
      ("server return fail:" ++ msg))
  else none

/-! ### `RestResult` and its `Read` (rest client file)

The HTTP response body (`res.response.Body`) is modelled as the script
of outcomes its successive `Read` calls return: each entry is the bytes
delivered together with the accompanying Go error (`none` for a plain
successful read, `some .eof` for `io.EOF`).  A drained script keeps
returning `(0, io.EOF)`, as Go readers do.  Observer callbacks are
returned as an `Ev` trace; an absent (`nil`) observer is
`event := false`. -/

/-- A live `http.Response`: status, header, and the body-read script. -/
structure HttpResponse where
  statusCode : Nat
  header : List (String × List String)
  bodyReads : List (List Nat × Option GoErr)
  deriving DecidableEq, Repr

/-- One `Body.Read` call on the modelled response. -/
def bodyRead (r : HttpResponse) :
    (List Nat × Option GoErr) × HttpResponse :=
  match r.bodyReads with
  | [] => (([], some .eof), r)
  | o :: rest => (o, { r with bodyReads := rest })

/-- The `RestResult` struct (the `build` field is kept only as the
presence flag needed by `JsonResult`, which no claim exercises). -/
structure RestResult where
  event : Bool
  response : Option HttpResponse
  body : List Nat
  bodyReadOffset : Int
  err : Option GoErr
  deriving DecidableEq, Repr

/-- `NewRestResultFromError(err, event)`: an error result plus the
events its construction emits (`ResponseFinish(err)` unless the event is
nil). -/
def NewRestResultFromError (e : GoErr) (event : Bool) :
    RestResult × List Ev :=
  ({ event := event, response := none, body := [], bodyReadOffset := -1,
     err := some e },
   if event then [Ev.responseFinish (some e)] else [])

/-- `NewRestResult(build, response, event)`: a live result; construction
emits `ResponseHeader` when both event and response are present. -/
def NewRestResult (response : Option HttpResponse) (event : Bool) :
    RestResult × List Ev :=
  ({ event := event, response := response, body := [], bodyReadOffset := -1,
     err := none },
   match response with
   | some r => if event then [Ev.responseHeader r.statusCode r.header] else []
   | none => [])

/-- `NewRestBodyResult(build, body, response, event)`: a pre-buffered
result; construction emits `ResponseHeader` (when a response is present)
and `ResponseFinish(nil)` when the event is present. -/
def NewRestBodyResult (body : List Nat) (response : Option HttpResponse)
    (event : Bool) : RestResult × List Ev :=
  ({ event := event, response := response, body := body, bodyReadOffset := 0,
     err := none },
   if event then
     (match response with
      | some r => [Ev.responseHeader r.statusCode r.header]
      | none => []) ++ [Ev.responseFinish none]
   else [])

/-- `RestResult.Read(p)` with `pLen = len(p)`: returns the bytes written
into `p` and the Go error, the successor state, and the emitted events.
In the live branch the Go code calls `res.event.ResponseRead` without a
nil check (a nil observer would panic there); the trace records the call,
and live-stream claims take the observer present. -/
def restResultRead (res : RestResult) (pLen : Nat) :
    (List Nat × Option GoErr) × RestResult × List Ev :=
  match res.err with
  | some e => (([], some e), res, [])
  | none =>
    if 0 ≤ res.bodyReadOffset then
      let off := res.bodyReadOffset.toNat
      let bDat := res.body
      let sLen := (bDat.drop off).length
      if sLen = 0 then (([], some .eof), res, [])
      else if sLen > pLen then
        ((( bDat.drop off).take pLen, none),
          { res with bodyReadOffset := res.bodyReadOffset + pLen }, [])
      else
        ((bDat.drop off, some .eof),
          { res with bodyReadOffset := res.bodyReadOffset + sLen }, [])
    else
      match res.response with
      | none => (([], some .eof), res, [])
      | some resp =>
        let ((data, e), resp') := bodyRead resp
        let evs1 := if 0 < data.length then [Ev.responseRead data] else []
        match e with
        | some .eof =>
          ((data, some .eof), { res with response := some resp' },
            evs1 ++ (if res.event then [Ev.responseFinish none] else []))
        | e' =>
          ((data, e'), { res with response := some resp', err := e' },
            evs1 ++ (if res.event then [Ev.responseFinish e'] else []))

/-- `RestResult.Err()`. -/
def RestResult.errAcc (res : RestResult) : Option GoErr := res.err

/-- Run a sequence of `Read` calls with the given buffer sizes,
collecting the per-call outcomes, the final state, and the full event
trace. -/
def runReads (res : RestResult) (sizes : List Nat) :
    List (List Nat × Option GoErr) × RestResult × List Ev :=
  match sizes with
  | [] => ([], res, [])
  | p :: rest =>
    let step := restResultRead res p
    let next := runReads step.2.1 rest
    (step.1 :: next.1, next.2.1, step.2.2 ++ next.2.2)

/-! ### `RestClient.Do` (rest client file)

`ConfigBuilds` and each `RestBuild.BuildRequest` are caller-supplied; a
call's behaviour is modelled by its outcome: `ConfigBuilds` either fails
or yields a table from operation key to build, and running a build
either returns a result or panics.  Either way the build carries the
observer events it fired while running (before returning or before the
panic — e.g. `AppRestBuild.BuildRequest` fires `RequestStart` before
points that can panic, such as the nil-request `Header` dereference
after a failed `http.NewRequest`); those events have already occurred
when the recover runs.  The returned channel (buffered, capacity 1) is
modelled by the results eventually sent on it and whether it was
closed. -/

/-- Outcome of invoking `build.BuildRequest(...)` inside `Do`'s
goroutine; `evs` are the observer callbacks the builder fired while it
ran (up to the panic, in the `panics` case). -/
inductive BuildOutcome where
  | ok (res : RestResult) (evs : List Ev)
  | panics (info : String) (evs : List Ev)

/-- The capability object (`client.Api`), by the behaviour `Do`
observes: `ConfigBuilds` fails or yields the operation table. -/
structure ApiModel where
  configBuilds : Except GoErr (Int → Option BuildOutcome)

/-- The channel returned by `Do`, by its eventual contents. -/
structure ChanState where
  sent : List RestResult
  closed : Bool
  deriving DecidableEq, Repr

/-- `RestClient.Do(ctx, key, param)`: the eventual channel contents and
the events emitted for the call.  Mirrors the Go control flow: the
`ConfigBuilds`-error branch sends one error result and returns without
`close(rc)`; the missing-key branch sends and closes; otherwise the
goroutine delivers the build's result and closes, and a recovered panic
is converted to a code-"3" error result, sent, and closed (the observer
callbacks the builder fired before panicking have already happened; the
recovery's error result, built with a nil event, adds none). -/
def clientDo (api : ApiModel) (key : Int) : ChanState × List Ev :=
  match api.configBuilds with
  | .error e =>
    let (r, evs) := NewRestResultFromError e false
    ({ sent := [r], closed := false }, evs)
  | .ok reqs =>
    match reqs key with
    | none =>
      let (r, evs) := NewRestResultFromError
        (GoErr.rest "2" "not find rest api") false
      ({ sent := [r], closed := true }, evs)
    | some (.ok res bevs) => ({ sent := [res], closed := true }, bevs)
    | some (.panics info bevs) =>
      let (r, evs) := NewRestResultFromError
        (GoErr.rest "3" ("panic " ++ info)) false
      ({ sent := [r], closed := true }, bevs ++ evs)

/-! ### Auxiliary definitions used by the claim statements -/

/-- A buffered-branch `RestResult` at read offset `o` (as produced by
`NewRestBodyResult` and advanced by `Read`). -/
def bufState (body : List Nat) (resp : Option HttpResponse) (ev : Bool)
    (o : Nat) : RestResult :=
  { event := ev, response := resp, body := body, bodyReadOffset := (o : Int),
    err := none }

/-- Number of `ResponseFinish` callbacks in an event trace. -/
def countFinish (evs : List Ev) : Nat :=
  (evs.filter fun e =>
    match e with
    | .responseFinish _ => true
    | _ => false).length

/-- A live response whose body reader yields a successful partial read
(`"ab"`, no error) and then `io.EOF`. -/
def liveRespExample : HttpResponse :=
  { statusCode := 200, header := [], bodyReads := [([97, 98], none), ([], some .eof)] }

/-- A capability object whose `ConfigBuilds` fails. -/
def apiConfigBuildsFail : ApiModel :=
  { configBuilds := .error (GoErr.other "config builds failed") }

/-- An operation table whose every build panics without having fired
any observer callback. -/
def panickingBuilds : Int → Option BuildOutcome :=
  fun _ => some (.panics "boom" [])

/-- An operation table whose every build fires `RequestStart` and then
panics — the behaviour of `AppRestBuild.BuildRequest` when
`http.NewRequest` fails and the nil request's `Header` is
dereferenced. -/
def panickingBuildsAfterStart : Int → Option BuildOutcome :=
  fun _ => some (.panics "boom"
    [Ev.requestStart "POST" "http://127.0.0.1:8080/jp/product"])

/-- An empty operation table. -/
def emptyBuilds : Int → Option BuildOutcome := fun _ => none

/-- Modelled from the spec: the signing computation in which the
`method` field is omitted from the input set entirely (the comparison
point of the spec's field-omission law); identical to
`AppRestParamSign` but with no `method` entry in the field map. -/
def reqParamOmitMethodList (version appKey timestamp content : String)
    (token : Option String) : List (String × String) :=
  [("app", appKey), ("version", version), ("timestamp", timestamp),
    ("content", content)] ++
  (match token with
   | some t => [("token", t)]
   | none => [])

/-- Modelled from the spec: signature over the field set with `method`
omitted. -/
def appRestParamSignMethodOmitted
    (version appKey timestamp content appSecret : String)
    (token : Option String) : String :=
  bytesToHex (md5Sum (strBytes
    (signedStringOfOrder
      ((reqParamOmitMethodList version appKey timestamp content token).map Prod.fst)
      (reqParamLookup (reqParamOmitMethodList version appKey timestamp content token))
      ++ appSecret)))

/-- The failing remote body of the spec's error scenario. -/
def body500 : String :=
  "\x7b\"result\":\x7b\"code\":\"500\",\"state\":\"fail\",\"message\":\"bad id\"\x7d\x7d"

/-! ### Order lemmas for the Go string comparison -/

theorem charsLe_cons (a b : Char) (as bs : List Char) :
    charsLe (a :: as) (b :: bs) = true ↔
      a.toNat < b.toNat ∨ (a.toNat = b.toNat ∧ charsLe as bs = true) := by
  show (if a.toNat < b.toNat then true
        else if b.toNat < a.toNat then false else charsLe as bs) = true ↔ _
  split
  · next h => simp [h]
  · next h1 =>
    split
    · next h2 =>
      simp only [Bool.false_eq_true, false_iff]
      rintro (h | ⟨he, _⟩) <;> omega
    · next h2 =>
      have he : a.toNat = b.toNat := by omega
      simp [he]

theorem charsLe_total (as : List Char) : ∀ bs,
    charsLe as bs = true ∨ charsLe bs as = true := by
  induction as with
  | nil => intro bs; exact Or.inl rfl
  | cons a as ih =>
    intro bs
    cases bs with
    | nil => exact Or.inr rfl
    | cons b bs =>
      rcases Nat.lt_trichotomy a.toNat b.toNat with h | h | h
      · exact Or.inl ((charsLe_cons ..).mpr (Or.inl h))
      · rcases ih bs with h2 | h2
        · exact Or.inl ((charsLe_cons ..).mpr (Or.inr ⟨h, h2⟩))
        · exact Or.inr ((charsLe_cons ..).mpr (Or.inr ⟨h.symm, h2⟩))
      · exact Or.inr ((charsLe_cons ..).mpr (Or.inl h))

theorem charsLe_trans (as : List Char) : ∀ bs cs,
    charsLe as bs = true → charsLe bs cs = true → charsLe as cs = true := by
  induction as with
  | nil => intro bs cs _ _; rfl
  | cons a as ih =>
    intro bs cs h1 h2
    cases bs with
    | nil => simp [charsLe] at h1
    | cons b bs =>
      cases cs with
      | nil => simp [charsLe] at h2
      | cons c cs =>
        rw [charsLe_cons] at h1 h2 ⊢
        rcases h1 with h1 | ⟨he1, h1⟩ <;> rcases h2 with h2 | ⟨he2, h2⟩
        · exact Or.inl (by omega)
        · exact Or.inl (by omega)
        · exact Or.inl (by omega)
        · exact Or.inr ⟨by omega, ih bs cs h1 h2⟩

theorem charsLe_antisymm (as : List Char) : ∀ bs,
    charsLe as bs = true → charsLe bs as = true → as = bs := by
  induction as with
  | nil =>
    intro bs h1 h2
    cases bs with
    | nil => rfl
    | cons b bs => simp [charsLe] at h2
  | cons a as ih =>
    intro bs h1 h2
    cases bs with
    | nil => simp [charsLe] at h1
    | cons b bs =>
      rw [charsLe_cons] at h1 h2
      rcases h1 with h1 | ⟨he1, h1⟩
      · rcases h2 with h2 | ⟨he2, h2⟩ <;> (exfalso; omega)
      · rcases h2 with h2 | ⟨he2, h2⟩
        · exfalso; omega
        · have hab : a = b := by
            have := congrArg Char.ofNat he1
            simpa [Char.ofNat_toNat] using this
          rw [hab, ih bs h1 h2]

instance : IsTotal String goStrLeR :=
  ⟨fun a b => charsLe_total a.data b.data⟩

instance : IsTrans String goStrLeR :=
  ⟨fun a b c h1 h2 => charsLe_trans a.data b.data c.data h1 h2⟩

instance : IsAntisymm String goStrLeR :=
  ⟨fun a b h1 h2 => congrArg String.mk (charsLe_antisymm a.data b.data h1 h2)⟩

theorem insertionSort_eq_of_perm (l₁ l₂ : List String) (h : l₁.Perm l₂) :
    List.insertionSort goStrLeR l₁ = List.insertionSort goStrLeR l₂ :=
  List.eq_of_perm_of_sorted
    ((List.perm_insertionSort _ _).trans (h.trans (List.perm_insertionSort _ _).symm))
    (List.sorted_insertionSort _ _) (List.sorted_insertionSort _ _)

/-! ### `url.Values` lemmas -/

theorem urlValuesSet_of_not_mem (vs : List (String × List String)) (k v : String)
    (h : ∀ e ∈ vs, e.1 ≠ k) : urlValuesSet vs k v = vs ++ [(k, [v])] := by
  induction vs with
  | nil => rfl
  | cons e rest ih =>
    obtain ⟨k', vv⟩ := e
    have hk : k' ≠ k := h (k', vv) (List.mem_cons_self _ _)
    simp only [urlValuesSet, if_neg hk, List.cons_append, List.cons.injEq, true_and]
    exact ih (fun e he => h e (List.mem_cons_of_mem _ he))

theorem setAllKeys_go (f : String → String) : ∀ (ks : List String)
    (acc : List (String × List String)), ks.Nodup →
    (∀ k ∈ ks, ∀ e ∈ acc, e.1 ≠ k) →
    ks.foldl (fun vs k => urlValuesSet vs k (f k)) acc =
      acc ++ ks.map (fun k => (k, [f k])) := by
  intro ks
  induction ks with
  | nil => intro acc _ _; simp
  | cons k ks ih =>
    intro acc hnd hdisj
    simp only [List.foldl_cons]
    rw [urlValuesSet_of_not_mem _ _ _
      (fun e he => hdisj k (List.mem_cons_self _ _) e he)]
    rw [ih (acc ++ [(k, [f k])]) hnd.of_cons ?_]
    · simp
    · intro k' hk' e he
      rcases List.mem_append.mp he with h | h
      · exact hdisj k' (List.mem_cons_of_mem _ hk') e h
      · simp only [List.mem_singleton] at h
        subst h
        have hkn : k ∉ ks := (List.nodup_cons.mp hnd).1
        intro hek
        exact hkn (by rw [show k = k' from hek]; exact hk')

theorem setAllKeys_eq_map (ks : List String) (f : String → String)
    (h : ks.Nodup) : setAllKeys ks f = ks.map (fun k => (k, [f k])) := by
  have := setAllKeys_go f ks [] h (by intro k _ e he; cases he)
  simpa [setAllKeys] using this

theorem urlValuesGet_map (l : List String) (f : String → String) (k : String)
    (h : k ∈ l) : urlValuesGet (l.map (fun k => (k, [f k]))) k = some [f k] := by
  induction l with
  | nil => cases h
  | cons a l ih =>
    simp only [List.map_cons, urlValuesGet]
    by_cases ha : a = k
    · subst ha; simp
    · rw [if_neg ha]
      exact ih (List.mem_of_ne_of_mem (fun he => ha he.symm) h)

theorem flatten_map_singleton {α β : Type} (l : List α) (g : α → β) :
    List.flatten (l.map (fun x => [g x])) = l.map g := by
  induction l <;> simp_all

theorem signedStringOfOrder_eq (ord : List String) (f : String → String)
    (h : ord.Nodup) :
    signedStringOfOrder ord f =
      String.intercalate "&" ((List.insertionSort goStrLeR ord).map
        (fun k => queryEscape k ++ "=" ++ queryEscape (f k))) := by
  unfold signedStringOfOrder urlValuesEncode
  have hnd : (List.insertionSort goStrLeR ord).Nodup :=
    ((List.perm_insertionSort goStrLeR ord).nodup_iff).mpr h
  rw [setAllKeys_eq_map _ f hnd]
  have hfst : ((List.insertionSort goStrLeR ord).map
      (fun k => (k, [f k]))).map Prod.fst = List.insertionSort goStrLeR ord := by
    simp only [List.map_map]
    have hc : (Prod.fst ∘ fun k : String => (k, [f k])) = id := rfl
    rw [hc, List.map_id]
  rw [hfst, List.Sorted.insertionSort_eq (List.sorted_insertionSort _ _)]
  have hmap : ∀ k ∈ List.insertionSort goStrLeR ord,
      ((urlValuesGet ((List.insertionSort goStrLeR ord).map
        (fun k => (k, [f k]))) k).getD []).map
          (fun v => queryEscape k ++ "=" ++ queryEscape v) =
      [queryEscape k ++ "=" ++ queryEscape (f k)] := by
    intro k hk
    rw [urlValuesGet_map _ _ _ hk]
    rfl
  rw [List.map_congr_left hmap, flatten_map_singleton]

theorem signedStringOfOrder_perm (ord₁ ord₂ : List String) (f : String → String)
    (h : ord₁.Perm ord₂) (hnd : ord₁.Nodup) :
    signedStringOfOrder ord₁ f = signedStringOfOrder ord₂ f := by
  rw [signedStringOfOrder_eq _ _ hnd, signedStringOfOrder_eq _ _ (h.nodup_iff.mp hnd),
    insertionSort_eq_of_perm _ _ h]

/-! ### Buffered-read lemmas -/

theorem restResultRead_bufState_exhausted (body : List Nat)
    (resp : Option HttpResponse) (ev : Bool) (o p : Nat)
    (h : body.length ≤ o) :
    restResultRead (bufState body resp ev o) p =
      (([], some .eof), bufState body resp ev o, []) := by
  simp only [restResultRead, bufState, Int.toNat_natCast, List.length_drop]
  rw [if_pos (Int.natCast_nonneg o), if_pos (by omega : body.length - o = 0)]

theorem restResultRead_bufState_mid (body : List Nat)
    (resp : Option HttpResponse) (ev : Bool) (o p : Nat)
    (h : p < body.length - o) :
    restResultRead (bufState body resp ev o) p =
      (((body.drop o).take p, none), bufState body resp ev (o + p), []) := by
  simp only [restResultRead, bufState, Int.toNat_natCast, List.length_drop]
  rw [if_pos (Int.natCast_nonneg o), if_neg (by omega : ¬ body.length - o = 0),
    if_pos (by omega : body.length - o > p)]
  have hc : ((o : Int) + (p : Int)) = ((o + p : Nat) : Int) := by omega
  rw [hc]

theorem restResultRead_bufState_last (body : List Nat)
    (resp : Option HttpResponse) (ev : Bool) (o p : Nat)
    (h1 : o < body.length) (h2 : body.length - o ≤ p) :
    restResultRead (bufState body resp ev o) p =
      ((body.drop o, some .eof), bufState body resp ev body.length, []) := by
  simp only [restResultRead, bufState, Int.toNat_natCast, List.length_drop]
  rw [if_pos (Int.natCast_nonneg o), if_neg (by omega : ¬ body.length - o = 0),
    if_neg (by omega : ¬ body.length - o > p)]
  have hc : ((o : Int) + ((body.length - o : Nat) : Int)) = ((body.length : Nat) : Int) := by
    omega
  rw [hc]

theorem runReads_bufState (body : List Nat) (resp : Option HttpResponse)
    (ev : Bool) : ∀ (sizes : List Nat) (o : Nat), o ≤ body.length →
    ∃ o', o ≤ o' ∧ o' ≤ body.length ∧
      (runReads (bufState body resp ev o) sizes).2.1 = bufState body resp ev o' ∧
      (runReads (bufState body resp ev o) sizes).2.2 = [] ∧
      List.flatten ((runReads (bufState body resp ev o) sizes).1.map Prod.fst) =
        (body.drop o).take (o' - o) ∧
      ((∃ out ∈ (runReads (bufState body resp ev o) sizes).1,
          out.2 = some GoErr.eof) → o' = body.length) := by
  intro sizes
  induction sizes with
  | nil =>
    intro o ho
    refine ⟨o, le_refl o, ho, rfl, rfl, by simp [runReads], ?_⟩
    rintro ⟨out, hout, _⟩
    simp [runReads] at hout
  | cons p rest ih =>
    intro o ho
    by_cases h0 : body.length ≤ o
    · obtain ⟨o', h1, h2, h3, h4, h5, h6⟩ := ih o ho
      have hstep := restResultRead_bufState_exhausted body resp ev o p h0
      refine ⟨o', h1, h2, ?_, ?_, ?_, ?_⟩ <;>
        simp only [runReads, hstep]
      · exact h3
      · simp [h4]
      · simp only [List.map_cons, List.flatten_cons, h5]
        simp
      · intro _
        omega
    · push_neg at h0
      by_cases hmid : p < body.length - o
      · obtain ⟨o', h1, h2, h3, h4, h5, h6⟩ := ih (o + p) (by omega)
        have hstep := restResultRead_bufState_mid body resp ev o p hmid
        refine ⟨o', by omega, h2, ?_, ?_, ?_, ?_⟩ <;>
          simp only [runReads, hstep]
        · exact h3
        · simp [h4]
        · simp only [List.map_cons, List.flatten_cons, h5]
          rw [show o' - o = p + (o' - (o + p)) by omega, List.take_add]
          congr 1
          rw [List.drop_drop]
        · rintro ⟨out, hout, houte⟩
          rcases List.mem_cons.mp hout with he | he
          · rw [he] at houte; cases houte
          · exact h6 ⟨out, he, houte⟩
      · obtain ⟨o', h1, h2, h3, h4, h5, h6⟩ := ih body.length (le_refl _)
        have ho' : o' = body.length := by omega
        subst ho'
        have hstep := restResultRead_bufState_last body resp ev o p h0 (by omega)
        refine ⟨body.length, by omega, le_refl _, ?_, ?_, ?_, ?_⟩ <;>
          simp only [runReads, hstep]
        · exact h3
        · simp [h4]
        · simp only [List.map_cons, List.flatten_cons, h5, List.drop_length,
            Nat.sub_self, List.take_zero, List.take_nil, List.append_nil]
          have hl : body.length - o = (body.drop o).length := (List.length_drop _ _).symm
          rw [hl, List.take_length]
        · intro _
          trivial

theorem signKeys_nodup (v k m ts c : String) (tok : Option String) :
    (signKeys v k m ts c tok).Nodup := by
  unfold signKeys reqParamSignList
  rcases tok with _ | t <;> by_cases hm : 0 < m.length <;> simp [hm]

/-! ### Small string facts -/

theorem strLengthZero (s : String) (h : s.length = 0) : s = "" := by
  apply congrArg String.mk
  have h2 : s.data.length = 0 := h
  simpa using List.length_eq_zero.mp h2

theorem strLengthPos (s : String) : 0 < s.length ↔ s ≠ "" := by
  constructor
  · intro h he
    subst he
    simp at h
  · intro h
    rcases Nat.eq_zero_or_pos s.length with h0 | hp
    · exact absurd (strLengthZero s h0) h
    · exact hp

theorem restResultRead_error (res : RestResult) (e : GoErr) (p : Nat)
    (h : res.err = some e) : restResultRead res p = (([], some e), res, []) := by
  simp only [restResultRead, h]

/-! ## Claim theorems -/

/-- Claim C1 (code bug): evaluating `Do` at the failing input.  When
`ConfigBuilds` returns an error, the channel receives exactly one Result
but is never closed (the Go code returns without `close(rc)` in that
branch), while the missing-key branch does close it — so the claim's
"always closed after the one Result" fails on the `ConfigBuilds`-error
path. -/
theorem c1_configBuilds_error_channel_not_closed :
    (clientDo apiConfigBuildsFail 0).1.sent.length = 1 ∧
    (clientDo apiConfigBuildsFail 0).1.closed = false ∧
    (clientDo ⟨.ok emptyBuilds⟩ 0).1.sent.length = 1 ∧
    (clientDo ⟨.ok emptyBuilds⟩ 0).1.closed = true := by
  decide

/-- Claim C9: a panic raised while the Endpoint Builder runs is
recovered at the goroutine boundary: the channel still receives exactly
one Result, that Result's `Err()` is non-nil, and the channel is
closed. -/
theorem c9_panic_contained (reqs : Int → Option BuildOutcome) (key : Int)
    (info : String) (bevs : List Ev)
    (h : reqs key = some (.panics info bevs)) :
    (clientDo ⟨.ok reqs⟩ key).1.sent.length = 1 ∧
    (clientDo ⟨.ok reqs⟩ key).1.closed = true ∧
    ∀ r ∈ (clientDo ⟨.ok reqs⟩ key).1.sent, (RestResult.errAcc r).isSome := by
  simp [clientDo, h, NewRestResultFromError, RestResult.errAcc]

/-- Witness for C9 at a concrete panicking operation table. -/
theorem c9_panic_contained_witness :
    panickingBuilds 0 = some (.panics "boom" []) ∧
    ((clientDo ⟨.ok panickingBuilds⟩ 0).1.sent.length = 1 ∧
     (clientDo ⟨.ok panickingBuilds⟩ 0).1.closed = true ∧
     ∀ r ∈ (clientDo ⟨.ok panickingBuilds⟩ 0).1.sent,
       (RestResult.errAcc r).isSome) :=
  ⟨rfl, c9_panic_contained panickingBuilds 0 "boom" [] rfl⟩

/-- Claim C10 counterexample: the claim's "no observer callback of any
kind fires for that call" fails on the builder-panic path.  A builder
may fire `RequestStart` before panicking (as `AppRestBuild.BuildRequest`
does before the nil-request `Header` dereference that follows a failed
`http.NewRequest`), and those callbacks have already happened when the
recover converts the panic into an error Result — so the call's event
trace is non-empty even though the error Result carries a nil event. -/
theorem c10_counterexample_panic_path_fires_callbacks :
    panickingBuildsAfterStart 0 = some (.panics "boom"
      [Ev.requestStart "POST" "http://127.0.0.1:8080/jp/product"]) ∧
    (clientDo ⟨.ok panickingBuildsAfterStart⟩ 0).2 =
      [Ev.requestStart "POST" "http://127.0.0.1:8080/jp/product"] ∧
    ¬ (clientDo ⟨.ok panickingBuildsAfterStart⟩ 0).2 = [] ∧
    ∀ r ∈ (clientDo ⟨.ok panickingBuildsAfterStart⟩ 0).1.sent,
      r.event = false :=
  ⟨rfl, rfl, by decide, by decide⟩

/-- Claim C10 as amended: every error Result that `Do` produces on the
`ConfigBuilds`-error, missing-key and panic-recovery paths is
constructed with a nil event, so its construction fires no observer
callback and no callback ever fires through it (reads return the stored
error and emit nothing); the error is observable only through `Err()`.
On the first two paths no observer callback at all fires for the call;
on the panic path the call's trace is exactly the callbacks the builder
had already fired before panicking — the recovery adds none. -/
theorem c10_preflight_errors_silent (e : GoErr) (key₁ key₂ key₃ : Int)
    (reqs₁ reqs₂ : Int → Option BuildOutcome) (info : String) (bevs : List Ev)
    (h₁ : reqs₁ key₂ = none) (h₂ : reqs₂ key₃ = some (.panics info bevs)) :
    ((clientDo ⟨.error e⟩ key₁).2 = [] ∧
      ∀ r ∈ (clientDo ⟨.error e⟩ key₁).1.sent,
        r.event = false ∧ RestResult.errAcc r = some e ∧
        ∀ p, (restResultRead r p).2.2 = [] ∧
          (restResultRead r p).1 = ([], some e)) ∧
    ((clientDo ⟨.ok reqs₁⟩ key₂).2 = [] ∧
      ∀ r ∈ (clientDo ⟨.ok reqs₁⟩ key₂).1.sent,
        r.event = false ∧
        RestResult.errAcc r = some (GoErr.rest "2" "not find rest api") ∧
        ∀ p, (restResultRead r p).2.2 = [] ∧
          (restResultRead r p).1 = ([], some (GoErr.rest "2" "not find rest api"))) ∧
    ((clientDo ⟨.ok reqs₂⟩ key₃).2 = bevs ∧
      ∀ r ∈ (clientDo ⟨.ok reqs₂⟩ key₃).1.sent,
        r.event = false ∧
        RestResult.errAcc r = some (GoErr.rest "3" ("panic " ++ info)) ∧
        ∀ p, (restResultRead r p).2.2 = [] ∧
          (restResultRead r p).1 = ([], some (GoErr.rest "3" ("panic " ++ info)))) := by
  refine ⟨⟨rfl, ?_⟩, ⟨by simp [clientDo, h₁, NewRestResultFromError], ?_⟩,
    ⟨by simp [clientDo, h₂, NewRestResultFromError], ?_⟩⟩
  · rintro r hr
    simp only [clientDo, NewRestResultFromError, List.mem_singleton] at hr
    subst hr
    refine ⟨rfl, rfl, fun p => ?_⟩
    rw [restResultRead_error _ e p rfl]
    exact ⟨rfl, rfl⟩
  · rintro r hr
    simp only [clientDo, h₁, NewRestResultFromError, List.mem_singleton] at hr
    subst hr
    refine ⟨rfl, rfl, fun p => ?_⟩
    rw [restResultRead_error _ _ p rfl]
    exact ⟨rfl, rfl⟩
  · rintro r hr
    simp only [clientDo, h₂, NewRestResultFromError, List.mem_singleton] at hr
    subst hr
    refine ⟨rfl, rfl, fun p => ?_⟩
    rw [restResultRead_error _ _ p rfl]
    exact ⟨rfl, rfl⟩

/-- Witness for the amended C10 at concrete error, tables and keys
(pre-panic trace empty, so the panic path's call trace is empty too). -/
theorem c10_preflight_errors_silent_witness :
    emptyBuilds 0 = none ∧
    panickingBuilds 0 = some (.panics "boom" []) ∧
    (((clientDo ⟨.error (GoErr.other "cfg")⟩ 0).2 = [] ∧
      ∀ r ∈ (clientDo ⟨.error (GoErr.other "cfg")⟩ 0).1.sent,
        r.event = false ∧ RestResult.errAcc r = some (GoErr.other "cfg") ∧
        ∀ p, (restResultRead r p).2.2 = [] ∧
          (restResultRead r p).1 = ([], some (GoErr.other "cfg"))) ∧
    ((clientDo ⟨.ok emptyBuilds⟩ 0).2 = [] ∧
      ∀ r ∈ (clientDo ⟨.ok emptyBuilds⟩ 0).1.sent,
        r.event = false ∧
        RestResult.errAcc r = some (GoErr.rest "2" "not find rest api") ∧
        ∀ p, (restResultRead r p).2.2 = [] ∧
          (restResultRead r p).1 = ([], some (GoErr.rest "2" "not find rest api"))) ∧
    ((clientDo ⟨.ok panickingBuilds⟩ 0).2 = [] ∧
      ∀ r ∈ (clientDo ⟨.ok panickingBuilds⟩ 0).1.sent,
        r.event = false ∧
        RestResult.errAcc r = some (GoErr.rest "3" ("panic " ++ "boom")) ∧
        ∀ p, (restResultRead r p).2.2 = [] ∧
          (restResultRead r p).1 = ([], some (GoErr.rest "3" ("panic " ++ "boom"))))) :=
  ⟨rfl, rfl, c10_preflight_errors_silent (GoErr.other "cfg") 0 0 0
    emptyBuilds panickingBuilds "boom" [] rfl rfl⟩

/-- Claim C4 (code bug): evaluating the live-stream `Read` at the
failing input.  For a live response whose reader yields a successful
partial read (`"ab"`, nil error) and then `io.EOF`, the observer's
`ResponseFinish` fires already on the ordinary partial read (with nil)
and again at EOF — two firings, where the claim allows at most one and
none on a partial read.  The non-empty read is mirrored to
`ResponseRead`. -/
theorem c4_finish_fires_on_partial_read :
    (runReads (NewRestResult (some liveRespExample) true).1 [8, 8]).2.2 =
      [Ev.responseRead [97, 98], Ev.responseFinish none, Ev.responseFinish none] ∧
    countFinish (runReads (NewRestResult (some liveRespExample) true).1 [8, 8]).2.2 = 2 := by
  decide

/-- Claim C3 counterexample: for the body `"{}"` the success marker is
entirely absent (`result.code` and `result.state` both missing), yet
`CheckJsonResult` returns an error rather than nil. -/
theorem c3_counterexample_absent_marker_errors :
    gjsonGet "\x7b\x7d" "result.code" = none ∧
    gjsonGet "\x7b\x7d" "result.state" = none ∧
    CheckJsonResult "\x7b\x7d" =
      some (NewAppClientError "" "" "server return fail:\x7b\x7d") :=
  ⟨rfl, rfl, by decide⟩

/-- Claim C3 as amended: when the success marker is entirely absent the
missing fields read as empty strings, which fail the `code = "200" and
state = "ok"` test, so `CheckJsonResult` returns an error — not nil —
with empty `Code` and `SubCode`, and a message that is
`"server return fail:"` followed by `result.message` when that is
non-empty, otherwise by the whole body. -/
theorem c3_amended_absent_marker_errors (body : String)
    (hc : gjsonGet body "result.code" = none)
    (hs : gjsonGet body "result.state" = none) :
    ∃ e, CheckJsonResult body = some e ∧ e.Code = "" ∧ e.SubCode = "" ∧
      e.Msg = "server return fail:" ++
        (if (gjsonGetString body "result.message").length = 0 then body
         else gjsonGetString body "result.message") := by
  unfold CheckJsonResult gjsonGetString
  rw [hc, hs]
  rw [if_pos (Or.inl (by decide : gjsonResultString none ≠ "200"))]
  exact ⟨_, rfl, rfl, rfl, rfl⟩

/-- Witness for the amended C3 at the concrete body `"{}"` (its
`result.message` is empty, so the message falls back to the whole
body). -/
theorem c3_amended_witness :
    gjsonGet "\x7b\x7d" "result.code" = none ∧
    gjsonGet "\x7b\x7d" "result.state" = none ∧
    (∃ e, CheckJsonResult "\x7b\x7d" = some e ∧ e.Code = "" ∧ e.SubCode = "" ∧
      e.Msg = "server return fail:" ++
        (if (gjsonGetString "\x7b\x7d" "result.message").length = 0 then "\x7b\x7d"
         else gjsonGetString "\x7b\x7d" "result.message")) :=
  ⟨rfl, rfl, c3_amended_absent_marker_errors "\x7b\x7d" rfl rfl⟩

/-- Claim C8: `CheckJsonResult` returns nil exactly for
`result.code = "200"` with `result.state = "ok"`; any other present
combination yields a service-level error whose `Code` is the remote code
and whose message contains the remote `result.message`. -/
theorem c8_service_error_envelope (body c s : String)
    (hc : gjsonGetString body "result.code" = c)
    (hs : gjsonGetString body "result.state" = s) :
    (c = "200" ∧ s = "ok" → CheckJsonResult body = none) ∧
    (¬(c = "200" ∧ s = "ok") →
      ∃ e, CheckJsonResult body = some e ∧ e.Code = c ∧
        ∃ pre post,
          e.Msg = pre ++ gjsonGetString body "result.message" ++ post) := by
  subst hc
  subst hs
  constructor
  · rintro ⟨h1, h2⟩
    unfold CheckJsonResult
    rw [h1, h2, if_neg (by simp)]
  · intro hne
    unfold CheckJsonResult
    rw [if_pos (not_and_or.mp hne)]
    refine ⟨_, rfl, rfl, ?_⟩
    by_cases hm : (gjsonGetString body "result.message").length = 0
    · rw [if_pos hm]
      refine ⟨"server return fail:", body, ?_⟩
      rw [strLengthZero _ hm]
      simp [NewAppClientError]
    · rw [if_neg hm]
      exact ⟨"server return fail:", "", by simp [NewAppClientError]⟩

/-- Witness for C8 at the spec's concrete failing body. -/
theorem c8_service_error_envelope_witness :
    gjsonGetString body500 "result.code" = "500" ∧
    gjsonGetString body500 "result.state" = "fail" ∧
    gjsonGetString body500 "result.message" = "bad id" ∧
    ¬("500" = "200" ∧ "fail" = "ok") ∧
    (∃ e, CheckJsonResult body500 = some e ∧ e.Code = "500" ∧
      ∃ pre post,
        e.Msg = pre ++ gjsonGetString body500 "result.message" ++ post) :=
  ⟨by decide, by decide, by decide, by decide,
    (c8_service_error_envelope body500 "500" "fail" (by decide) (by decide)).2
      (by decide)⟩

/-- Claim C2 counterexample: with an empty `appKey` and a token pointer
to the empty string, the fields `app` and `token` carry empty values yet
both enter the signed set and the encoded signing string — the claim's
"empty-string values are omitted" fails for them. -/
theorem c2_counterexample_empty_values_signed :
    ("app", "") ∈ reqParamSignList "1.0" "" "" "t" "c" (some "") ∧
    ("token", "") ∈ reqParamSignList "1.0" "" "" "t" "c" (some "") ∧
    appRestParamSignData "1.0" "" "" "t" "c" (some "") =
      "app=&content=c&timestamp=t&token=&version=1.0" := by
  decide

/-- Claim C2 as amended: the signed set always contains `app`,
`version`, `timestamp` and `content`, even when their values are empty;
only `method` is conditioned on non-emptiness, and `token` is included
iff the token pointer is non-nil, regardless of its value. -/
theorem c2_amended_field_presence (v k m ts c : String) (tok : Option String) :
    "app" ∈ signKeys v k m ts c tok ∧
    "version" ∈ signKeys v k m ts c tok ∧
    "timestamp" ∈ signKeys v k m ts c tok ∧
    "content" ∈ signKeys v k m ts c tok ∧
    ("method" ∈ signKeys v k m ts c tok ↔ m ≠ "") ∧
    ("token" ∈ signKeys v k m ts c tok ↔ tok.isSome) := by
  have hml := (strLengthPos m).symm
  unfold signKeys reqParamSignList
  rcases tok with _ | t <;> by_cases hm : 0 < m.length <;>
    simp [hm, hml]

/-- Claim C5: signing with `method = ""` produces exactly the signature
of the computation in which the `method` field is omitted from the input
set entirely. -/
theorem c5_empty_method_omits_field (v k ts c sec : String)
    (tok : Option String) :
    AppRestParamSign v k "" ts c sec tok =
      appRestParamSignMethodOmitted v k ts c sec tok :=
  rfl

/-- Claim C6: the signature is deterministic and independent of the map
iteration order: any two enumerations of the field map's keys yield the
same signature, and the canonical enumeration yields exactly
`AppRestParamSign`. -/
theorem c6_signature_order_independent (v k m ts c sec : String)
    (tok : Option String) (ord₁ ord₂ : List String)
    (h₁ : ord₁.Perm (signKeys v k m ts c tok))
    (h₂ : ord₂.Perm (signKeys v k m ts c tok)) :
    appRestParamSignOfOrder ord₁ v k m ts c sec tok =
      appRestParamSignOfOrder ord₂ v k m ts c sec tok ∧
    appRestParamSignOfOrder (signKeys v k m ts c tok) v k m ts c sec tok =
      AppRestParamSign v k m ts c sec tok := by
  constructor
  · unfold appRestParamSignOfOrder
    rw [signedStringOfOrder_perm ord₁ ord₂ _ (h₁.trans h₂.symm)
      (h₁.nodup_iff.mpr (signKeys_nodup v k m ts c tok))]
  · rfl

/-- Witness for C6 at two concrete enumeration orders. -/
theorem c6_signature_order_independent_witness :
    List.Perm ["version", "app", "content", "timestamp"]
      (signKeys "1.0" "hjx" "" "t" "c" none) ∧
    List.Perm ["timestamp", "content", "app", "version"]
      (signKeys "1.0" "hjx" "" "t" "c" none) ∧
    (appRestParamSignOfOrder ["version", "app", "content", "timestamp"]
        "1.0" "hjx" "" "t" "c" "sec" none =
      appRestParamSignOfOrder ["timestamp", "content", "app", "version"]
        "1.0" "hjx" "" "t" "c" "sec" none ∧
     appRestParamSignOfOrder (signKeys "1.0" "hjx" "" "t" "c" none)
        "1.0" "hjx" "" "t" "c" "sec" none =
      AppRestParamSign "1.0" "hjx" "" "t" "c" "sec" none) :=
  ⟨by decide, by decide,
    c6_signature_order_independent "1.0" "hjx" "" "t" "c" "sec" none
      ["version", "app", "content", "timestamp"]
      ["timestamp", "content", "app", "version"] (by decide) (by decide)⟩

/-- Claim C7: buffered reads are forward-only and lossless: any sequence
of reads with non-empty buffers returns consecutive disjoint slices
whose concatenation is the prefix of the body up to the current offset;
once any read has signalled end-of-data the concatenation is the whole
body; a read with the remaining bytes fitting the buffer returns exactly
those bytes with the end-of-data signal (never fewer); after exhaustion
every read returns no bytes and the end-of-data signal.  Buffered reads
emit no observer events. -/
theorem c7_buffered_forward_reads (body : List Nat)
    (resp : Option HttpResponse) (ev : Bool) (sizes : List Nat)
    (_hpos : ∀ s ∈ sizes, 0 < s) :
    (List.flatten
        ((runReads ((NewRestBodyResult body resp ev).1) sizes).1.map Prod.fst) =
      body.take
        ((runReads ((NewRestBodyResult body resp ev).1) sizes).2.1.bodyReadOffset.toNat)) ∧
    ((runReads ((NewRestBodyResult body resp ev).1) sizes).2.1.bodyReadOffset.toNat ≤
      body.length) ∧
    ((runReads ((NewRestBodyResult body resp ev).1) sizes).2.2 = []) ∧
    ((∃ out ∈ (runReads ((NewRestBodyResult body resp ev).1) sizes).1,
        out.2 = some GoErr.eof) →
      List.flatten
        ((runReads ((NewRestBodyResult body resp ev).1) sizes).1.map Prod.fst) =
        body) ∧
    (∀ (o p : Nat), o ≤ body.length → body.length - o ≤ p → 0 < p →
      (restResultRead (bufState body resp ev o) p).1 =
        (body.drop o, some GoErr.eof)) ∧
    (∀ p : Nat,
      (restResultRead (bufState body resp ev body.length) p).1 =
        ([], some GoErr.eof)) := by
  have hbuf : (NewRestBodyResult body resp ev).1 = bufState body resp ev 0 := rfl
  obtain ⟨o', h1, h2, h3, h4, h5, h6⟩ :=
    runReads_bufState body resp ev sizes 0 (Nat.zero_le _)
  rw [hbuf]
  refine ⟨?_, ?_, h4, ?_, ?_, ?_⟩
  · rw [h5, h3]
    simp [bufState]
  · rw [h3]
    simpa [bufState] using h2
  · intro hex
    rw [h5, h6 hex]
    simp [List.take_length]
  · intro o p ho hp _
    rcases Nat.lt_or_ge o body.length with hlt | hge
    · rw [restResultRead_bufState_last body resp ev o p hlt hp]
    · have hoe : o = body.length := by omega
      rw [hoe, restResultRead_bufState_exhausted body resp ev body.length p (le_refl _)]
      simp [List.drop_length]
  · intro p
    rw [restResultRead_bufState_exhausted body resp ev body.length p (le_refl _)]

/-- Witness for C7 at a concrete body and read sequence. -/
theorem c7_buffered_forward_reads_witness :
    (∀ s ∈ [2, 2, 2], 0 < s) ∧
    ((List.flatten
        ((runReads ((NewRestBodyResult [1, 2, 3, 4, 5] none false).1)
          [2, 2, 2]).1.map Prod.fst) =
      List.take
        ((runReads ((NewRestBodyResult [1, 2, 3, 4, 5] none false).1)
          [2, 2, 2]).2.1.bodyReadOffset.toNat) [1, 2, 3, 4, 5]) ∧
    ((runReads ((NewRestBodyResult [1, 2, 3, 4, 5] none false).1)
        [2, 2, 2]).2.1.bodyReadOffset.toNat ≤
      List.length [1, 2, 3, 4, 5]) ∧
    ((runReads ((NewRestBodyResult [1, 2, 3, 4, 5] none false).1)
        [2, 2, 2]).2.2 = []) ∧
    ((∃ out ∈ (runReads ((NewRestBodyResult [1, 2, 3, 4, 5] none false).1)
        [2, 2, 2]).1, out.2 = some GoErr.eof) →
      List.flatten
        ((runReads ((NewRestBodyResult [1, 2, 3, 4, 5] none false).1)
          [2, 2, 2]).1.map Prod.fst) = [1, 2, 3, 4, 5]) ∧
    (∀ (o p : Nat), o ≤ List.length [1, 2, 3, 4, 5] →
      List.length [1, 2, 3, 4, 5] - o ≤ p → 0 < p →
      (restResultRead (bufState [1, 2, 3, 4, 5] none false o) p).1 =
        (List.drop o [1, 2, 3, 4, 5], some GoErr.eof)) ∧
    (∀ p : Nat,
      (restResultRead
        (bufState [1, 2, 3, 4, 5] none false (List.length [1, 2, 3, 4, 5])) p).1 =
        ([], some GoErr.eof))) :=
  ⟨by decide, c7_buffered_forward_reads [1, 2, 3, 4, 5] none false [2, 2, 2]
    (by decide)⟩

end RestClient
